import Mathlib

/-!
Shallow embedding of `versionedzarrlib/data.py` (class `VersionedData`), the
core of the VersionedStorage repository: a versioned, chunked array store in
which raw chunks are written once under monotonically increasing identifiers
and a dense index grid maps grid positions to chunk identifiers (0 = empty).

External collaborators (the zarr storage engine, the metadata module and the
dask bulk-fill input) are modelled at their interface boundary:
* a zarr array opened with mode `w-` (create-exclusive) fails when the target
  already exists, and fails an assignment `z[:] = data` of mismatched shape;
* `z[position]` and `z[position] = v` raise an index error when `position`
  is out of bounds; reading never mutates state;
* exceptions do not roll back effects already persisted to disk, so every
  mutating operation returns the resulting on-disk state together with an
  optional error.
Python integers are unbounded, so shapes, positions and identifiers are `Nat`.
Python's `/` on two ints is float true division: CPython computes the
IEEE-754 double nearest to the exact quotient (53-bit significand, ties to
even), so `int(a/b)` can differ from floor division once the quotient
reaches 2^53. This rounding is embedded exactly (`int_truediv` below) using
integer arithmetic.
-/

/-- Element types (numpy dtypes) that occur in the embedding. -/
inductive DType
  | int8
  | uint64
  | float64
  deriving DecidableEq

/-- A block of array data: its dtype, its shape, and its contents flattened
in row-major order. -/
structure Block where
  dtype : DType
  shape : List Nat
  data : List Int
  deriving DecidableEq

/-- The errors the embedded operations can surface: zarr's out-of-bounds
index error, zarr's create-exclusive "already exists" error (the
`ChunkAlreadyExistsError` class of the spec), zarr's shape-mismatch error on
bulk assignment, zarr's error for opening a missing path in read mode, and
the repository's `InvalidDataDaskFillError`. -/
inductive PyError
  | indexError
  | containsArrayError
  | valueError
  | pathNotFoundError
  | invalidDataDaskFillError (tyName : String)
  deriving DecidableEq

/-- The persistent (on-disk) state of one store location: the configuration
recorded in metadata (`shape`, `raw_chunk_size`, `d_type`), the index
dataset (`indexes`, a dense grid of chunk identifiers, 0 = empty), the raw
chunk directory (`raw`, one immutable file per identifier), and the
metadata's chunk counter (`total_chunks`). -/
structure StoreState where
  shape : List Nat
  raw_chunk_size : List Nat
  d_type : DType
  indexes : List Nat → Nat
  raw : Nat → Option Block
  total_chunks : Nat

/-- Constructor arguments of `VersionedData.__init__` that the claims need. -/
structure VersionedDataCfg where
  shape : List Nat
  raw_chunk_size : List Nat
  d_type : DType

/-- Fuel-driven binary logarithm, structurally recursive so concrete
instances evaluate in the kernel; `log2F fuel n` is exact for `n ≤ fuel`. -/
def log2F : Nat → Nat → Nat
  | 0, _ => 0
  | fuel + 1, n => if 2 ≤ n then log2F fuel (n / 2) + 1 else 0

/-- Floor of the binary logarithm (0 at 0). -/
def ilog2 (n : Nat) : Nat := log2F n n

/-- Round the quotient `N / D` to the nearest integer, ties to even — the
rounding step of IEEE-754 round-to-nearest division. -/
def ieeeRound (N D : Nat) : Nat :=
  let m0 := N / D
  let r := N % D
  if D < 2 * r then m0 + 1 else if 2 * r < D then m0 else m0 + m0 % 2

/-- Embeds CPython's `int(a / b)` for nonneg ints: `a / b` is float true
division, producing the IEEE-754 double nearest to the exact quotient
(53-bit significand, ties to even), which `int()` then truncates toward
zero. The binade of `a/b` is located with `ilog2`, the significand is the
correctly rounded 53-bit scaling of the quotient, and the result is the
truncated value. The exponent is unbounded here: CPython raises
OverflowError for quotients at or above 2^1024 and rounds to a coarser
subnormal grid below 2^-1022 (invisible after `int()`, which sends
everything below 1 - 2^-54 to 0 in both models); `b = 0` raises
ZeroDivisionError in Python and is never reached by the callers. -/
def int_truediv (a b : Nat) : Nat :=
  if a = 0 then 0
  else
    let la := ilog2 a
    let lb := ilog2 b
    let adj : Nat := if b * 2 ^ la ≤ a * 2 ^ lb then 0 else 1
    let up := 52 + lb + adj - la
    let down := la - (52 + lb + adj)
    ieeeRound (a * 2 ^ up) (b * 2 ^ down) * 2 ^ down / 2 ^ up

/-- Embeds `VersionedData._get_grid_dimensions(dimension, chunk_size)`: per axis,
`int(dimension[i] / chunk_size[i])` — float true division, embedded
exactly by `int_truediv` — plus one when the exact integer remainder is
nonzero. -/
def _get_grid_dimensions (dimension chunk_size : List Nat) : List Nat :=
  (List.range dimension.length).map fun i =>
    let val := int_truediv (dimension.getD i 0) (chunk_size.getD i 0)
    if dimension.getD i 0 % chunk_size.getD i 0 > 0 then val + 1 else val

/-- Embeds `self._index_matrix_dimension`, recomputed from the persisted shape and
chunk size exactly as `__init__` does. -/
def _index_matrix_dimension (s : StoreState) : List Nat :=
  _get_grid_dimensions s.shape s.raw_chunk_size

/-- Bounds check the zarr engine applies to `z[position]`: the position has
one coordinate per grid axis and each coordinate is below the grid
dimension of its axis. -/
def inBoundsB (dims position : List Nat) : Bool :=
  position.length == dims.length &&
    (List.zip position dims).all fun q => decide (q.1 < q.2)

/-- Embeds `np.zeros(self.raw_chunk_size, dtype=np.uint64)`: an all-zero block of
the chunk shape whose dtype is unsigned 64-bit regardless of the store's
configured dtype. -/
def zerosBlock (shape : List Nat) : Block :=
  ⟨DType.uint64, shape, List.replicate shape.prod 0⟩

/-- Modelled from the spec: `Metadata.next_chunk(path)` lives in the
repository's metadata module, which is not under `src/`. Per §4.2 of the
spec it reads the allocator counter from persistent metadata, returns a
value strictly greater than every previously returned one starting at 1,
and writes the counter back as part of the call. -/
def Metadata.next_chunk (s : StoreState) : Nat × StoreState :=
  (s.total_chunks + 1, { s with total_chunks := s.total_chunks + 1 })

/-- The record `Metadata.read_metadata` reconstructs from disk. -/
structure MetadataRec where
  shape : List Nat
  chunks : List Nat
  dtype : DType
  total_chunks : Nat

/-- Modelled from the spec: `Metadata.read_metadata(path)` (metadata module,
not under `src/`) returns the persisted shape, chunk size, dtype and
chunk counter (§6). -/
def Metadata.read_metadata (s : StoreState) : MetadataRec :=
  ⟨s.shape, s.raw_chunk_size, s.d_type, s.total_chunks⟩

/-- Embeds `VersionedData._get_next_index`: delegates to `Metadata.next_chunk`. -/
def _get_next_index (s : StoreState) : Nat × StoreState :=
  Metadata.next_chunk s

/-- Embeds `VersionedData.get_chunk(grid_position)`: read the index entry; when it
is positive, return the stored chunk's contents, otherwise an all-zero
uint64 block of the chunk shape. -/
def get_chunk (s : StoreState) (grid_position : List Nat) : Except PyError Block :=
  if inBoundsB (_index_matrix_dimension s) grid_position then
    let file_id := s.indexes grid_position
    if file_id > 0 then
      match s.raw file_id with
      | some z => Except.ok z
      | none => Except.error PyError.pathNotFoundError
    else
      Except.ok (zerosBlock s.raw_chunk_size)
  else
    Except.error PyError.indexError

/-- Embeds `VersionedData.save_raw(data, index)`: `zarr.open(new_file, mode='w-')`
fails when a chunk file for `index` already exists; otherwise the file is
created and `z[:] = data` stores the data (failing, with the file left
created, when the data's shape is not the chunk shape). -/
def save_raw (s : StoreState) (data : Block) (index : Nat) :
    StoreState × Option PyError :=
  match s.raw index with
  | some _ => (s, some PyError.containsArrayError)
  | none =>
      if data.shape = s.raw_chunk_size then
        ({ s with raw := fun i => if i = index then some data else s.raw i },
          none)
      else
        ({ s with raw := fun i =>
            if i = index then
              some ⟨data.dtype, s.raw_chunk_size,
                List.replicate s.raw_chunk_size.prod 0⟩
            else s.raw i },
          some PyError.valueError)

/-- Embeds `VersionedData._update_index(index, position)`: `z[position] = index` on
the index dataset, failing (with no change) when `position` is out of
bounds. -/
def _update_index (s : StoreState) (index : Nat) (position : List Nat) :
    StoreState × Option PyError :=
  if inBoundsB (_index_matrix_dimension s) position then
    ({ s with indexes := fun q => if q = position then index else s.indexes q },
      none)
  else
    (s, some PyError.indexError)

/-- Embeds `VersionedData.write_block(data, grid_position)`: allocate the next
identifier, store the chunk, then update the index; an exception leaves
the effects already persisted in place. -/
def write_block (s : StoreState) (data : Block) (grid_position : List Nat) :
    StoreState × Option PyError :=
  let r := _get_next_index s
  let r2 := save_raw r.2 data r.1
  match r2.2 with
  | some e => (r2.1, some e)
  | none => _update_index r2.1 r.1 grid_position

/-- Embeds `VersionedData.get_file(file_id)`: open the chunk file in read mode,
failing when it does not exist. -/
def get_file (s : StoreState) (file_id : Nat) : Except PyError Block :=
  match s.raw file_id with
  | some z => Except.ok z
  | none => Except.error PyError.pathNotFoundError

/-- Embeds `VersionedData.block_exists(grid_position)`: returns the Python int `1`
when the index entry is positive and `0` otherwise (Python's `0 == False`). -/
def block_exists (s : StoreState) (grid_position : List Nat) :
    Except PyError Nat :=
  if inBoundsB (_index_matrix_dimension s) grid_position then
    Except.ok (if s.indexes grid_position > 0 then 1 else 0)
  else
    Except.error PyError.indexError

/-- Embeds `VersionedData.get_total_chunks`: reads `total_chunks` from metadata. -/
def get_total_chunks (s : StoreState) : Nat :=
  (Metadata.read_metadata s).total_chunks

/-- The on-disk state `VersionedData._create_new_dataset` leaves behind at a
freshly created location: an all-zero index dataset, an empty raw
directory, and fresh metadata with the chunk counter at zero. -/
def freshStore (cfg : VersionedDataCfg) : StoreState :=
  { shape := cfg.shape
    raw_chunk_size := cfg.raw_chunk_size
    d_type := cfg.d_type
    indexes := fun _ => 0
    raw := fun _ => none
    total_chunks := 0 }

/-- Embeds `VersionedData.create(overwrite)`: `disk` is the prior content of the
target location (`none` when the path does not exist). When the location
exists and `overwrite` is false the call returns immediately, changing
nothing and raising nothing; when `overwrite` is true the whole location
is removed first and a fresh dataset is created. -/
def create (cfg : VersionedDataCfg) (disk : Option StoreState)
    (overwrite : Bool) : StoreState :=
  match disk with
  | some st => if overwrite then freshStore cfg else st
  | none => freshStore cfg

/-- Embeds `VersionedData.open(path)`: rebuild a store instance from persisted
metadata; the on-disk contents are untouched. -/
def open_store (s : StoreState) : StoreState :=
  let m := Metadata.read_metadata s
  { shape := m.shape
    raw_chunk_size := m.chunks
    d_type := m.dtype
    indexes := s.indexes
    raw := s.raw
    total_chunks := s.total_chunks }

/-- The possible arguments of `fill_index_dataset`: Python `None`, a dask
array (carrying the grid contents it evaluates to), or a value of any
other type. -/
inductive PyData
  | none
  | daskArray (vals : List Nat → Nat)
  | other (tyName : String)

/-- Embeds `VersionedData.fill_index_dataset(data)`: `None` is silently ignored; a
dask array is bulk-stored into the index dataset; anything else raises
`InvalidDataDaskFillError` with nothing written. -/
def fill_index_dataset (s : StoreState) (data : PyData) :
    StoreState × Option PyError :=
  match data with
  | PyData.none => (s, Option.none)
  | PyData.daskArray vals => ({ s with indexes := vals }, Option.none)
  | PyData.other t => (s, some (PyError.invalidDataDaskFillError t))

/-- Reachability invariant of the allocator: no chunk file exists at an
identifier above the persisted counter. It holds for a fresh store and is
preserved by every operation. -/
def rawFresh (s : StoreState) : Prop :=
  ∀ i, s.total_chunks < i → s.raw i = none

/-- Demo configuration used by the concrete witnesses: a one-dimensional
array of shape 2 with chunks of size 1 and dtype int8. -/
def demoCfg : VersionedDataCfg :=
  ⟨[2], [1], DType.int8⟩

/-- A freshly created demo store. -/
def demoStore : StoreState :=
  create demoCfg none false

/-- A demo block of the chunk shape and dtype. -/
def demoB1 : Block :=
  ⟨DType.int8, [1], [7]⟩

/-- A second demo block of the chunk shape and dtype. -/
def demoB2 : Block :=
  ⟨DType.int8, [1], [9]⟩

/-!  Helper lemmas. -/

/-- Bracketing of the fuel-driven logarithm: for `1 ≤ n ≤ fuel`,
`2 ^ log2F fuel n ≤ n < 2 ^ (log2F fuel n + 1)`. -/
lemma log2F_bracket : ∀ fuel n, 1 ≤ n → n ≤ fuel →
    2 ^ log2F fuel n ≤ n ∧ n < 2 ^ (log2F fuel n + 1) := by
  intro fuel
  induction fuel with
  | zero => intro n h1 h2; omega
  | succ fuel ih =>
      intro n h1 h2
      unfold log2F
      by_cases h : 2 ≤ n
      · rw [if_pos h]
        obtain ⟨hl, hr⟩ := ih (n / 2) (by omega) (by omega)
        have e1 : (2:Nat) ^ (log2F fuel (n / 2) + 1)
            = 2 * 2 ^ log2F fuel (n / 2) := by ring
        have e2 : (2:Nat) ^ (log2F fuel (n / 2) + 1 + 1)
            = 2 * 2 ^ (log2F fuel (n / 2) + 1) := by ring
        omega
      · rw [if_neg h]
        simp only [pow_zero, pow_one]
        omega

/-- Lower bracketing of `ilog2`. -/
lemma ilog2_le (n : Nat) (h : 1 ≤ n) : 2 ^ ilog2 n ≤ n :=
  (log2F_bracket n n h le_rfl).1

/-- Upper bracketing of `ilog2`. -/
lemma lt_ilog2_succ (n : Nat) (h : 1 ≤ n) : n < 2 ^ (ilog2 n + 1) :=
  (log2F_bracket n n h le_rfl).2

/-- Rounding the scaled quotient `a * 2 ^ u / b` to the nearest integer
(ties to even) and truncating back never crosses an integer boundary of
the original quotient as long as `b < 2 ^ (u + 1)` — the reason
`int(a/b)` agrees with floor division while `a < 2 ^ 53`. -/
lemma ieeeRound_div (a b u : Nat) (hb : 0 < b) (hbu : b < 2 ^ (u + 1)) :
    ieeeRound (a * 2 ^ u) b / 2 ^ u = a / b := by
  have hu : (0:Nat) < 2 ^ u := pow_pos (by norm_num) u
  have hdm : b * (a * 2 ^ u / b) + a * 2 ^ u % b = a * 2 ^ u :=
    Nat.div_add_mod _ _
  have hadm : b * (a / b) + a % b = a := Nat.div_add_mod a b
  have hmod : a % b < b := Nat.mod_lt a hb
  have hab : a < (a / b + 1) * b := by
    have e : (a / b + 1) * b = b * (a / b) + b := by ring
    omega
  have hba : a / b * b ≤ a := Nat.div_mul_le_self a b
  have hlo : a / b * 2 ^ u ≤ a * 2 ^ u / b := by
    rw [Nat.le_div_iff_mul_le hb]
    calc a / b * 2 ^ u * b = a / b * b * 2 ^ u := by ring
      _ ≤ a * 2 ^ u := mul_le_mul_right' hba _
  have hhi : a * 2 ^ u / b < (a / b + 1) * 2 ^ u := by
    rw [Nat.div_lt_iff_lt_mul hb]
    calc a * 2 ^ u < ((a / b + 1) * b) * 2 ^ u :=
          mul_lt_mul_of_pos_right hab hu
      _ = (a / b + 1) * 2 ^ u * b := by ring
  have hup : b ≤ 2 * (a * 2 ^ u % b) →
      a * 2 ^ u / b + 1 < (a / b + 1) * 2 ^ u := by
    intro h2r
    rcases Nat.lt_or_ge (a * 2 ^ u / b + 1) ((a / b + 1) * 2 ^ u) with hlt | hge
    · exact hlt
    · exfalso
      have heq : a * 2 ^ u / b + 1 = (a / b + 1) * 2 ^ u := by omega
      have hkey : a * 2 ^ u + 2 ^ u ≤ (a / b + 1) * 2 ^ u * b := by
        calc a * 2 ^ u + 2 ^ u = (a + 1) * 2 ^ u := by ring
          _ ≤ ((a / b + 1) * b) * 2 ^ u := mul_le_mul_right' (by omega) _
          _ = (a / b + 1) * 2 ^ u * b := by ring
      rw [← heq] at hkey
      have hexpand : (a * 2 ^ u / b + 1) * b = b * (a * 2 ^ u / b) + b := by
        ring
      have hexp2 : (2:Nat) ^ (u + 1) = 2 * 2 ^ u := by ring
      omega
  unfold ieeeRound
  dsimp only
  split
  · next h1 =>
      exact Nat.div_eq_of_lt_le (le_trans hlo (Nat.le_succ _))
        (hup (le_of_lt h1))
  · split
    · next h1 h2 => exact Nat.div_eq_of_lt_le hlo hhi
    · next h1 h2 =>
        have hbe : b ≤ 2 * (a * 2 ^ u % b) := by omega
        rcases Nat.mod_two_eq_zero_or_one (a * 2 ^ u / b) with he | ho
        · rw [he, Nat.add_zero]
          exact Nat.div_eq_of_lt_le hlo hhi
        · rw [ho]
          exact Nat.div_eq_of_lt_le (le_trans hlo (Nat.le_succ _)) (hup hbe)

/-- Below 2 ^ 53 the rounded float quotient truncates to exactly the floor
quotient: `int(a/b) = a // b` for `1 ≤ a < 2 ^ 53`, `1 ≤ b`. -/
lemma int_truediv_eq_div (a b : Nat) (ha : 1 ≤ a) (hb : 1 ≤ b)
    (h53 : a < 2 ^ 53) : int_truediv a b = a / b := by
  have hla : 2 ^ ilog2 a ≤ a := ilog2_le a ha
  have hla52 : ilog2 a ≤ 52 := by
    rcases Nat.lt_or_ge 52 (ilog2 a) with hcon | hok
    · have : (2:Nat) ^ 53 ≤ 2 ^ ilog2 a :=
        Nat.pow_le_pow_right (by norm_num) (by omega)
      omega
    · exact hok
  have hlb : b < 2 ^ (ilog2 b + 1) := lt_ilog2_succ b hb
  unfold int_truediv
  rw [if_neg (show ¬a = 0 by omega)]
  dsimp only
  by_cases hcond : b * 2 ^ ilog2 a ≤ a * 2 ^ ilog2 b
  · rw [if_pos hcond]
    have hdown : ilog2 a - (52 + ilog2 b + 0) = 0 := by omega
    rw [hdown]
    simp only [pow_zero, mul_one]
    apply ieeeRound_div
    · omega
    · have hle : ilog2 b + 1 ≤ 52 + ilog2 b + 0 - ilog2 a + 1 := by omega
      exact lt_of_lt_of_le hlb (Nat.pow_le_pow_right (by norm_num) hle)
  · rw [if_neg hcond]
    have hdown : ilog2 a - (52 + ilog2 b + 1) = 0 := by omega
    rw [hdown]
    simp only [pow_zero, mul_one]
    apply ieeeRound_div
    · omega
    · have hle : ilog2 b + 1 ≤ 52 + ilog2 b + 1 - ilog2 a + 1 := by omega
      exact lt_of_lt_of_le hlb (Nat.pow_le_pow_right (by norm_num) hle)

/-- Ceiling division of naturals, in the shape the floor-division quotient
plus remainder test takes, agrees with the rational ceiling. -/
lemma natDiv_ceil_eq (d c : Nat) (hc : 0 < c) :
    ((if d % c > 0 then d / c + 1 else d / c : Nat) : ℤ)
      = ⌈(d : ℚ) / (c : ℚ)⌉ := by
  have hc0 : (c : ℚ) ≠ 0 := Nat.cast_ne_zero.mpr hc.ne'
  have hcq : (0 : ℚ) < (c : ℚ) := by exact_mod_cast hc
  rcases Nat.eq_zero_or_pos (d % c) with h0 | hpos
  · obtain ⟨k, rfl⟩ := Nat.dvd_of_mod_eq_zero h0
    rw [if_neg (by simp [h0])]
    rw [Nat.mul_div_cancel_left k hc]
    have : ((c * k : Nat) : ℚ) / (c : ℚ) = (k : ℚ) := by
      push_cast
      field_simp
    rw [this, Int.ceil_natCast]
  · rw [if_pos hpos]
    symm
    rw [Int.ceil_eq_iff]
    have hlt : c * (d / c) < d := by
      have h1 : c * (d / c) < c * (d / c) + d % c := Nat.lt_add_of_pos_right hpos
      rwa [Nat.div_add_mod d c] at h1
    have hle : d ≤ (d / c + 1) * c := by
      have hrc : d % c < c := Nat.mod_lt d hc
      have h2 : d < (d / c + 1) * c := by
        calc d = c * (d / c) + d % c := (Nat.div_add_mod d c).symm
          _ < c * (d / c) + c := Nat.add_lt_add_left hrc _
          _ = (d / c + 1) * c := by ring
      exact h2.le
    constructor
    · have h3 : ((d / c : Nat) : ℚ) < (d : ℚ) / (c : ℚ) := by
        rw [lt_div_iff₀ hcq]
        calc ((d / c : Nat) : ℚ) * (c : ℚ) = ((c * (d / c) : Nat) : ℚ) := by
              push_cast
              ring
          _ < (d : ℚ) := by exact_mod_cast hlt
      rw [Int.cast_natCast, Nat.cast_add, Nat.cast_one, add_sub_cancel_right]
      exact h3
    · rw [div_le_iff₀ hcq, Int.cast_natCast]
      exact_mod_cast hle

/-- Entry `i` of `_get_grid_dimensions`, extracted. -/
lemma _get_grid_dimensions_getD (S C : List Nat) (i : Nat) (hi : i < S.length) :
    (_get_grid_dimensions S C).getD i 0
      = (if S.getD i 0 % C.getD i 0 > 0
         then int_truediv (S.getD i 0) (C.getD i 0) + 1
         else int_truediv (S.getD i 0) (C.getD i 0)) := by
  unfold _get_grid_dimensions
  simp [List.getD_eq_getElem?_getD, List.getElem?_map, List.getElem?_range, hi]

/-- Counterexample for C5: the claim quantifies over all positive integer
shapes, but `int(dimension[i] / chunk_size[i])` is float true division,
rounded at 53 bits of significand. At shape `[2^53+1]`, chunk `[1]` the
program computes grid dimension `2^53`, not the exact ceiling `2^53 + 1`,
even though the input is an equal-rank pair of positive integers. -/
theorem C5_counterexample :
    ([2 ^ 53 + 1] : List Nat).length = ([1] : List Nat).length ∧
    (0 : Nat) < 2 ^ 53 + 1 ∧ (0 : Nat) < 1 ∧
    (_get_grid_dimensions [2 ^ 53 + 1] [1]).getD 0 0 = 2 ^ 53 ∧
    ((_get_grid_dimensions [2 ^ 53 + 1] [1]).getD 0 0 : ℤ)
      ≠ ⌈((2 ^ 53 + 1 : Nat) : ℚ) / ((1 : Nat) : ℚ)⌉ := by
  have h1 : (_get_grid_dimensions [2 ^ 53 + 1] [1]).getD 0 0 = 2 ^ 53 := by
    decide
  refine ⟨rfl, by norm_num, by norm_num, h1, ?_⟩
  rw [h1]
  have h2 : ((2 ^ 53 + 1 : Nat) : ℚ) / ((1 : Nat) : ℚ)
      = ((2 ^ 53 + 1 : Nat) : ℚ) := by
    norm_num
  rw [h2, Int.ceil_natCast]
  exact_mod_cast (show (2 ^ 53 : Nat) ≠ 2 ^ 53 + 1 by omega)

/-- C5 (amended): for every pair of equal-rank sequences of positive
integers `S` (array shape) and `C` (chunk shape) in which every shape
entry is below `2^53` — the range where Python's float true division
`int(S[i] / C[i])` coincides with floor division —
`_get_grid_dimensions(S, C)[i]` equals `ceil(S[i] / C[i])` on every
axis `i`. -/
theorem C5_grid_dimensions_ceil_amended (S C : List Nat)
    (hlen : S.length = C.length)
    (hS : ∀ i, i < S.length → 0 < S.getD i 0)
    (hC : ∀ i, i < C.length → 0 < C.getD i 0)
    (hsmall : ∀ i, i < S.length → S.getD i 0 < 2 ^ 53)
    (i : Nat) (hi : i < S.length) :
    ((_get_grid_dimensions S C).getD i 0 : ℤ)
      = ⌈(S.getD i 0 : ℚ) / (C.getD i 0 : ℚ)⌉ := by
  rw [_get_grid_dimensions_getD S C i hi,
    int_truediv_eq_div _ _ (hS i hi) (hC i (hlen ▸ hi)) (hsmall i hi)]
  exact natDiv_ceil_eq _ _ (hC i (hlen ▸ hi))

/-- Witness for the amended C5 at the spec's own example: `shape=(100,100)`,
`chunk=(64,64)` gives grid dimension `ceil(100/64) = 2` on axis 0. -/
theorem C5_grid_dimensions_ceil_amended_witness :
    ((_get_grid_dimensions [100, 100] [64, 64]).getD 0 0 : ℤ)
      = ⌈((100 : Nat) : ℚ) / ((64 : Nat) : ℚ)⌉ :=
  C5_grid_dimensions_ceil_amended [100, 100] [64, 64] rfl (by decide)
    (by decide) (by decide) 0 (by decide)

/-- C3: storing a chunk under an identifier already present in the chunk
store fails with the create-exclusive "already exists" error (the
`ChunkAlreadyExistsError` class) and leaves the existing chunk's data
untouched. -/
theorem C3_save_raw_existing (s : StoreState) (data b0 : Block) (index : Nat)
    (h : s.raw index = some b0) :
    save_raw s data index = (s, some PyError.containsArrayError) ∧
    (save_raw s data index).1.raw index = some b0 := by
  have hs : save_raw s data index = (s, some PyError.containsArrayError) := by
    unfold save_raw
    rw [h]
  exact ⟨hs, by rw [hs]; exact h⟩

/-- The demo store after one `write_block` of `demoB1` at position `[0]`. -/
def demoStore1 : StoreState :=
  (write_block demoStore demoB1 [0]).1

/-- Witness for C3: writing a second block under the already-used
identifier 1 fails and the chunk for `demoB1` is untouched. -/
theorem C3_save_raw_existing_witness :
    save_raw demoStore1 demoB2 1 = (demoStore1, some PyError.containsArrayError) ∧
    (save_raw demoStore1 demoB2 1).1.raw 1 = some demoB1 :=
  C3_save_raw_existing demoStore1 demoB2 demoB1 1 (by decide)

/-- C7: on a freshly created store every in-bounds position reads as the
all-zero block of the chunk shape, and `block_exists` returns `0`
(Python's falsy `0 == False`). -/
theorem C7_empty_read_default (cfg : VersionedDataCfg) (p : List Nat)
    (hp : inBoundsB (_index_matrix_dimension (create cfg none false)) p = true) :
    get_chunk (create cfg none false) p
      = Except.ok (zerosBlock cfg.raw_chunk_size) ∧
    block_exists (create cfg none false) p = Except.ok 0 := by
  have hp' : inBoundsB (_index_matrix_dimension (freshStore cfg)) p = true := hp
  constructor
  · show get_chunk (freshStore cfg) p = Except.ok (zerosBlock cfg.raw_chunk_size)
    unfold get_chunk
    rw [hp']
    simp [freshStore]
  · show block_exists (freshStore cfg) p = Except.ok 0
    unfold block_exists
    rw [hp']
    simp [freshStore]

/-- Witness for C7 on the demo store at position `[1]`. -/
theorem C7_empty_read_default_witness :
    get_chunk (create demoCfg none false) [1] = Except.ok (zerosBlock [1]) ∧
    block_exists (create demoCfg none false) [1] = Except.ok 0 :=
  C7_empty_read_default demoCfg [1] (by decide)

/-- C8: `create` on an existing location with `overwrite = false` is a
no-op returning the old state unchanged (and, being total, raises
nothing); with `overwrite = true` the entire prior location is replaced
by a fresh store, so any previously written position reads back the empty
default. -/
theorem C8_create_overwrite (cfg : VersionedDataCfg) (st : StoreState)
    (p : List Nat)
    (hp : inBoundsB (_index_matrix_dimension (freshStore cfg)) p = true) :
    create cfg (some st) false = st ∧
    create cfg (some st) true = freshStore cfg ∧
    get_chunk (create cfg (some st) true) p
      = Except.ok (zerosBlock cfg.raw_chunk_size) ∧
    block_exists (create cfg (some st) true) p = Except.ok 0 := by
  refine ⟨rfl, rfl, ?_, ?_⟩
  · show get_chunk (freshStore cfg) p = Except.ok (zerosBlock cfg.raw_chunk_size)
    unfold get_chunk
    rw [hp]
    simp [freshStore]
  · show block_exists (freshStore cfg) p = Except.ok 0
    unfold block_exists
    rw [hp]
    simp [freshStore]

/-- Witness for C8: the demo store with one written block, recreated. -/
theorem C8_create_overwrite_witness :
    create demoCfg (some demoStore1) false = demoStore1 ∧
    create demoCfg (some demoStore1) true = freshStore demoCfg ∧
    get_chunk (create demoCfg (some demoStore1) true) [0]
      = Except.ok (zerosBlock [1]) ∧
    block_exists (create demoCfg (some demoStore1) true) [0] = Except.ok 0 :=
  C8_create_overwrite demoCfg demoStore1 [0] (by decide)

/-- Counterexample for C9: calling `fill_index_dataset` with Python `None`
(a source without the lazy-array capability) raises nothing at all: the
`data is not None` guard silently ignores it instead of reporting
`InvalidDataDaskFillError`. -/
theorem C9_counterexample :
    (fill_index_dataset demoStore PyData.none).2 = Option.none :=
  rfl

/-- C9 (amended): `fill_index_dataset` fails with `InvalidDataDaskFillError`
and performs no fill for every source that is neither a dask array nor
`None`; the `None` source is silently ignored with no fill and no error. -/
theorem C9_fill_index_dataset_amended (s : StoreState) (t : String) :
    fill_index_dataset s (PyData.other t)
      = (s, some (PyError.invalidDataDaskFillError t)) ∧
    fill_index_dataset s PyData.none = (s, Option.none) :=
  ⟨rfl, rfl⟩

/-- Running `save_raw` at a fresh identifier with a block of the chunk shape
creates the chunk file and raises nothing. -/
lemma save_raw_fresh (s : StoreState) (b : Block) (index : Nat)
    (hraw : s.raw index = none) (hshape : b.shape = s.raw_chunk_size) :
    save_raw s b index
      = ({ s with raw := fun i => if i = index then some b else s.raw i },
          none) := by
  unfold save_raw
  rw [hraw, if_pos hshape]

/-- The store state after a successful `write_block s b p`. -/
def postWrite (s : StoreState) (b : Block) (p : List Nat) : StoreState :=
  { s with
    indexes := fun q => if q = p then s.total_chunks + 1 else s.indexes q
    raw := fun i => if i = s.total_chunks + 1 then some b else s.raw i
    total_chunks := s.total_chunks + 1 }

/-- An in-bounds `write_block` on a state satisfying the allocator
invariant allocates `total_chunks + 1`, stores the chunk there, updates
the index entry, and raises nothing. -/
lemma write_block_eq (s : StoreState) (b : Block) (p : List Nat)
    (hfresh : rawFresh s) (hshape : b.shape = s.raw_chunk_size)
    (hp : inBoundsB (_index_matrix_dimension s) p = true) :
    write_block s b p = (postWrite s b p, none) := by
  have hraw : ({ s with total_chunks := s.total_chunks + 1 } : StoreState).raw
      (s.total_chunks + 1) = none := hfresh _ (Nat.lt_succ_self _)
  unfold write_block _get_next_index Metadata.next_chunk
  dsimp only
  rw [save_raw_fresh _ b _ hraw hshape]
  dsimp only
  unfold _update_index
  dsimp only [_index_matrix_dimension] at hp ⊢
  rw [hp]
  dsimp only [postWrite]
  simp

/-- Reading back the written position after a successful write returns
the block. -/
lemma get_chunk_postWrite (s : StoreState) (b : Block) (p : List Nat)
    (hp : inBoundsB (_index_matrix_dimension s) p = true) :
    get_chunk (postWrite s b p) p = Except.ok b := by
  have hp2 : inBoundsB (_index_matrix_dimension (postWrite s b p)) p = true := hp
  unfold get_chunk
  rw [hp2]
  dsimp only [postWrite]
  simp

/-- C1: for every in-bounds grid position `p` and block `b` of the store's
chunk shape and dtype, `write_block b p` succeeds and a subsequent
`get_chunk p` returns a block equal to `b`. -/
theorem C1_write_then_read_identity (s : StoreState) (b : Block) (p : List Nat)
    (hfresh : rawFresh s)
    (hp : inBoundsB (_index_matrix_dimension s) p = true)
    (hshape : b.shape = s.raw_chunk_size) (hdtype : b.dtype = s.d_type) :
    (write_block s b p).2 = none ∧
    get_chunk (write_block s b p).1 p = Except.ok b := by
  rw [write_block_eq s b p hfresh hshape hp]
  exact ⟨rfl, get_chunk_postWrite s b p hp⟩

/-- Witness for C1 on the fresh demo store. -/
theorem C1_write_then_read_identity_witness :
    (write_block demoStore demoB1 [0]).2 = none ∧
    get_chunk (write_block demoStore demoB1 [0]).1 [0] = Except.ok demoB1 :=
  C1_write_then_read_identity demoStore demoB1 [0] (fun _ _ => rfl) (by decide)
    rfl rfl

/-- The allocator invariant survives a successful write. -/
lemma rawFresh_postWrite (s : StoreState) (b : Block) (p : List Nat)
    (hfresh : rawFresh s) : rawFresh (postWrite s b p) := by
  intro i hi
  dsimp only [postWrite] at hi ⊢
  rw [if_neg (by omega)]
  exact hfresh i (by omega)

/-- C4: after writing `b1` then `b2` to the same in-bounds position, the
chunk holding `b1` is still present and readable under its original
identifier, reading the position returns `b2`, and `get_total_chunks`
has increased by 2. -/
theorem C4_immutability_under_overwrite (s : StoreState) (b1 b2 : Block)
    (p : List Nat) (hfresh : rawFresh s)
    (hp : inBoundsB (_index_matrix_dimension s) p = true)
    (h1 : b1.shape = s.raw_chunk_size) (h2 : b2.shape = s.raw_chunk_size) :
    (write_block (write_block s b1 p).1 b2 p).1.raw (s.total_chunks + 1)
      = some b1 ∧
    get_file (write_block (write_block s b1 p).1 b2 p).1 (s.total_chunks + 1)
      = Except.ok b1 ∧
    get_chunk (write_block (write_block s b1 p).1 b2 p).1 p = Except.ok b2 ∧
    get_total_chunks (write_block (write_block s b1 p).1 b2 p).1
      = get_total_chunks s + 2 := by
  rw [write_block_eq s b1 p hfresh h1 hp]
  dsimp only
  rw [write_block_eq (postWrite s b1 p) b2 p (rawFresh_postWrite s b1 p hfresh)
      h2 hp]
  dsimp only
  have hraw1 : (postWrite (postWrite s b1 p) b2 p).raw (s.total_chunks + 1)
      = some b1 := by
    dsimp only [postWrite]
    rw [if_neg (by omega), if_pos rfl]
  refine ⟨hraw1, ?_, ?_, ?_⟩
  · unfold get_file
    rw [hraw1]
  · exact get_chunk_postWrite (postWrite s b1 p) b2 p hp
  · dsimp only [get_total_chunks, Metadata.read_metadata, postWrite]

/-- Witness for C4 on the fresh demo store, writing twice at `[0]`. -/
theorem C4_immutability_under_overwrite_witness :
    (write_block (write_block demoStore demoB1 [0]).1 demoB2 [0]).1.raw
        (demoStore.total_chunks + 1) = some demoB1 ∧
    get_file (write_block (write_block demoStore demoB1 [0]).1 demoB2 [0]).1
        (demoStore.total_chunks + 1) = Except.ok demoB1 ∧
    get_chunk (write_block (write_block demoStore demoB1 [0]).1 demoB2 [0]).1
        [0] = Except.ok demoB2 ∧
    get_total_chunks (write_block (write_block demoStore demoB1 [0]).1 demoB2
        [0]).1 = get_total_chunks demoStore + 2 :=
  C4_immutability_under_overwrite demoStore demoB1 demoB2 [0] (fun _ _ => rfl)
    (by decide) rfl rfl

/-- An out-of-bounds `write_block` fails only at the index update: by then
the identifier is allocated and the chunk file created, and those effects
stay on disk. -/
lemma write_block_oob (s : StoreState) (b : Block) (p : List Nat)
    (hfresh : rawFresh s) (hshape : b.shape = s.raw_chunk_size)
    (hp : inBoundsB (_index_matrix_dimension s) p = false) :
    write_block s b p
      = ({ s with
            raw := fun i => if i = s.total_chunks + 1 then some b else s.raw i
            total_chunks := s.total_chunks + 1 },
          some PyError.indexError) := by
  have hraw : ({ s with total_chunks := s.total_chunks + 1 } : StoreState).raw
      (s.total_chunks + 1) = none := hfresh _ (Nat.lt_succ_self _)
  unfold write_block _get_next_index Metadata.next_chunk
  dsimp only
  rw [save_raw_fresh _ b _ hraw hshape]
  dsimp only
  unfold _update_index
  dsimp only [_index_matrix_dimension] at hp ⊢
  rw [hp]
  simp

/-- Counterexample for C6: on the fresh demo store (grid dimensions `[2]`)
the out-of-bounds write at `[5]` does fail, but it does not leave the
store unchanged: the allocator counter has advanced and a chunk file was
created. -/
theorem C6_counterexample :
    (write_block demoStore demoB1 [5]).2 = some PyError.indexError ∧
    (write_block demoStore demoB1 [5]).1.total_chunks
      ≠ demoStore.total_chunks ∧
    (write_block demoStore demoB1 [5]).1.raw 1 ≠ demoStore.raw 1 := by
  refine ⟨?_, ?_, ?_⟩ <;> decide

/-- C6 (amended): with any coordinate at or above the grid dimension,
`get_chunk` and `block_exists` fail with the index error and, being
reads, change nothing; `write_block` also fails with the index error and
leaves the index grid unchanged, but by then it has incremented the
allocator counter and stored the chunk under the burnt identifier. -/
theorem C6_out_of_bounds_amended (s : StoreState) (b : Block) (p : List Nat)
    (hfresh : rawFresh s) (hshape : b.shape = s.raw_chunk_size)
    (hp : inBoundsB (_index_matrix_dimension s) p = false) :
    get_chunk s p = Except.error PyError.indexError ∧
    block_exists s p = Except.error PyError.indexError ∧
    (write_block s b p).2 = some PyError.indexError ∧
    (write_block s b p).1.indexes = s.indexes ∧
    (write_block s b p).1.total_chunks = s.total_chunks + 1 ∧
    (write_block s b p).1.raw (s.total_chunks + 1) = some b := by
  have hwb := write_block_oob s b p hfresh hshape hp
  refine ⟨?_, ?_, ?_, ?_, ?_, ?_⟩
  · unfold get_chunk
    rw [hp]
    simp
  · unfold block_exists
    rw [hp]
    simp
  · rw [hwb]
  · rw [hwb]
  · rw [hwb]
  · rw [hwb]
    dsimp only
    rw [if_pos rfl]

/-- Witness for the amended C6 at the out-of-bounds position `[5]`. -/
theorem C6_out_of_bounds_amended_witness :
    get_chunk demoStore [5] = Except.error PyError.indexError ∧
    block_exists demoStore [5] = Except.error PyError.indexError ∧
    (write_block demoStore demoB1 [5]).2 = some PyError.indexError ∧
    (write_block demoStore demoB1 [5]).1.indexes = demoStore.indexes ∧
    (write_block demoStore demoB1 [5]).1.total_chunks
      = demoStore.total_chunks + 1 ∧
    (write_block demoStore demoB1 [5]).1.raw (demoStore.total_chunks + 1)
      = some demoB1 :=
  C6_out_of_bounds_amended demoStore demoB1 [5] (fun _ _ => rfl) rfl (by decide)

/-- Run `write_block` for each `(block, position)` of `ws` in order,
threading the on-disk state every call leaves behind (also after an
exception, since effects already persisted are not rolled back). -/
def write_seq (s : StoreState) : List (Block × List Nat) → StoreState
  | [] => s
  | w :: ws => write_seq (write_block s w.1 w.2).1 ws

/-- The identifier `_get_next_index` hands out during the `k`-th (0-based)
`write_block` call of the sequence `ws` run from state `s`: the call
allocates from the state the previous `k` calls left behind. -/
def allocated_id (s : StoreState) (ws : List (Block × List Nat)) (k : Nat) :
    Nat :=
  (_get_next_index (write_seq s (ws.take k))).1

/-- Lemma: `save_raw` never touches the metadata counter. -/
lemma save_raw_total_chunks (s : StoreState) (data : Block) (index : Nat) :
    (save_raw s data index).1.total_chunks = s.total_chunks := by
  unfold save_raw
  cases h : s.raw index <;> dsimp only
  split <;> rfl

/-- Lemma: `_update_index` never touches the metadata counter. -/
lemma _update_index_total_chunks (s : StoreState) (index : Nat)
    (p : List Nat) :
    (_update_index s index p).1.total_chunks = s.total_chunks := by
  unfold _update_index
  split <;> rfl

/-- Every `write_block` call, successful or not, advances the persisted
counter by exactly one. -/
lemma write_block_total_chunks (s : StoreState) (b : Block) (p : List Nat) :
    (write_block s b p).1.total_chunks = s.total_chunks + 1 := by
  unfold write_block _get_next_index Metadata.next_chunk
  dsimp only
  cases h : (save_raw { s with total_chunks := s.total_chunks + 1 } b
      (s.total_chunks + 1)).2 with
  | none =>
      rw [_update_index_total_chunks, save_raw_total_chunks]
  | some e =>
      rw [save_raw_total_chunks]

/-- After `ws` writes the counter has advanced by `ws.length`. -/
lemma write_seq_total_chunks (s : StoreState) (ws : List (Block × List Nat)) :
    (write_seq s ws).total_chunks = s.total_chunks + ws.length := by
  induction ws generalizing s with
  | nil => rfl
  | cons w ws ih =>
      unfold write_seq
      rw [ih, write_block_total_chunks]
      simp only [List.length_cons]
      omega

/-- Closed form of the identifier allocated at step `k`. -/
lemma allocated_id_eq (s : StoreState) (ws : List (Block × List Nat))
    (k : Nat) :
    allocated_id s ws k = s.total_chunks + min k ws.length + 1 := by
  unfold allocated_id _get_next_index Metadata.next_chunk
  dsimp only
  rw [write_seq_total_chunks]
  simp [List.length_take]

/-- Reopening a store reads the persisted metadata and changes nothing on
disk. -/
lemma open_store_eq (s : StoreState) : open_store s = s := rfl

/-- C2: across any sequence of `write_block` calls the allocated chunk
identifiers are strictly increasing, and no identifier is ever allocated
twice: any identifier allocated after closing the store and reopening it
from its persisted metadata is strictly above every identifier the
earlier sequence allocated. -/
theorem C2_identifier_monotonic_non_reuse (s : StoreState)
    (ws ws2 : List (Block × List Nat)) :
    (∀ i j, j < ws.length → i < j →
      allocated_id s ws i < allocated_id s ws j) ∧
    (∀ i j, i < ws.length →
      allocated_id s ws i
        < allocated_id (open_store (write_seq s ws)) ws2 j) := by
  constructor
  · intro i j hj hij
    rw [allocated_id_eq, allocated_id_eq]
    omega
  · intro i j hi
    rw [allocated_id_eq, open_store_eq, allocated_id_eq,
      write_seq_total_chunks]
    omega

/-- Witness for C2: two writes then a reopen and another write on the demo
store. -/
theorem C2_identifier_monotonic_non_reuse_witness :
    allocated_id demoStore [(demoB1, [0]), (demoB2, [0])] 0
      < allocated_id demoStore [(demoB1, [0]), (demoB2, [0])] 1 ∧
    allocated_id demoStore [(demoB1, [0]), (demoB2, [0])] 1
      < allocated_id
          (open_store (write_seq demoStore [(demoB1, [0]), (demoB2, [0])]))
          [(demoB1, [1])] 0 :=
  ⟨(C2_identifier_monotonic_non_reuse demoStore [(demoB1, [0]), (demoB2, [0])]
      [(demoB1, [1])]).1 0 1 (by decide) (by decide),
   (C2_identifier_monotonic_non_reuse demoStore [(demoB1, [0]), (demoB2, [0])]
      [(demoB1, [1])]).2 1 0 (by decide)⟩

/-- C10: reading an empty cell returns a block whose dtype is the
hard-coded unsigned 64-bit, regardless of the store's configured dtype,
while a cell that was written returns a block of the written dtype — so
the two element types differ whenever the store's dtype is not uint64. -/
theorem C10_empty_read_dtype_uint64 (s : StoreState) (b : Block)
    (p : List Nat) (hfresh : rawFresh s)
    (hp : inBoundsB (_index_matrix_dimension s) p = true)
    (hempty : s.indexes p = 0) (hd : s.d_type ≠ DType.uint64)
    (hshape : b.shape = s.raw_chunk_size) (hdtype : b.dtype = s.d_type) :
    get_chunk s p = Except.ok (zerosBlock s.raw_chunk_size) ∧
    (zerosBlock s.raw_chunk_size).dtype = DType.uint64 ∧
    (zerosBlock s.raw_chunk_size).dtype ≠ s.d_type ∧
    get_chunk (write_block s b p).1 p = Except.ok b ∧
    b.dtype ≠ DType.uint64 := by
  refine ⟨?_, rfl, fun hcontra => hd hcontra.symm, ?_, ?_⟩
  · unfold get_chunk
    rw [hp, hempty]
    simp
  · rw [write_block_eq s b p hfresh hshape hp]
    exact get_chunk_postWrite s b p hp
  · rw [hdtype]
    exact hd

/-- Witness for C10 on the fresh demo store (configured dtype int8). -/
theorem C10_empty_read_dtype_uint64_witness :
    get_chunk demoStore [0] = Except.ok (zerosBlock demoStore.raw_chunk_size) ∧
    (zerosBlock demoStore.raw_chunk_size).dtype = DType.uint64 ∧
    (zerosBlock demoStore.raw_chunk_size).dtype ≠ demoStore.d_type ∧
    get_chunk (write_block demoStore demoB1 [0]).1 [0] = Except.ok demoB1 ∧
    demoB1.dtype ≠ DType.uint64 :=
  C10_empty_read_dtype_uint64 demoStore demoB1 [0] (fun _ _ => rfl)
    (by decide) rfl (by decide) rfl rfl
